import Mathlib

/-!
Verification of the OSF preview rendering pipeline
(`src/commands/previewCommand.ts` of the omniscript-vscode extension).

Strings are modelled as `List Char` (the JavaScript code treats strings as
character sequences; all the relevant operations are character based).
Each definition below is a direct transcription of the corresponding
TypeScript function; the JS regexes used by the renderer are modelled by
executable matchers that implement exactly the same (leftmost, lazy or
greedy with backtracking) semantics those regexes have on the renderer's
inputs.
-/

namespace OsfPreview

set_option maxRecDepth 8000

abbrev Str := List Char

/-- `text.replace(/X/g, r)` for a single-character pattern `X`:
every occurrence of the character `c` is replaced by `r`. -/
def replaceAll (c : Char) (r : Str) (s : Str) : Str :=
  s.flatMap (fun x => if x = c then r else [x])

/-- `escapeHtml` (previewCommand.ts lines 500-507): the five chained
single-character replacements, ampersand first. -/
def escapeHtml (s : Str) : Str :=
  replaceAll '\x27' ("&#39;".data)
    (replaceAll '"' ("&quot;".data)
      (replaceAll '>' ("&gt;".data)
        (replaceAll '<' ("&lt;".data)
          (replaceAll '&' ("&amp;".data) s))))

/-- JavaScript `.` in a regex (no /s flag): any character except the four
line terminators. -/
def dotChar (c : Char) : Bool :=
  !(c = '\n' || c = '\r' || c.toNat = 0x2028 || c.toNat = 0x2029)

/-- The JavaScript whitespace class `\s` (also the set removed by
`String.prototype.trim`). -/
def jsWhitespace (c : Char) : Bool :=
  c = ' ' || c = '\t' || c = '\n' || c.toNat = 11 || c.toNat = 12 || c = '\r' ||
  c.toNat = 0xa0 || c.toNat = 0x1680 || (0x2000 ≤ c.toNat && c.toNat ≤ 0x200a) ||
  c.toNat = 0x2028 || c.toNat = 0x2029 || c.toNat = 0x202f || c.toNat = 0x205f ||
  c.toNat = 0x3000 || c.toNat = 0xfeff

/-- JavaScript `String.prototype.trim`. -/
def trimJS (l : Str) : Str :=
  ((l.dropWhile jsWhitespace).reverse.dropWhile jsWhitespace).reverse

/-- If `p` is a prefix of `s`, return the rest of `s`. -/
def stripPre (p : Str) (s : Str) : Option Str :=
  match p, s with
  | [], s => some s
  | _ :: _, [] => none
  | a :: p, b :: s => if a = b then stripPre p s else none

/-- The lazy group of `(.+?)` followed by the literal `close`: the shortest
non-empty run of `.`-matchable characters after which `close` occurs.
Returns the captured run and the text after the closing literal. -/
def lazyCapture (close : Str) : Str → Option (Str × Str)
  | [] => none
  | c :: rest =>
    if dotChar c then
      match stripPre close rest with
      | some tail => some ([c], tail)
      | none =>
        match lazyCapture close rest with
        | some (cap, tail) => some (c :: cap, tail)
        | none => none
    else none

/-- Global (JS `/g`) replacement of `opn(.+?)close` by `pre $1 post`:
scan left to right, at each position try the opening literal and the lazy
group; on a match emit `pre ++ capture ++ post` and continue after the
closing literal, otherwise copy one character and move on.  `fuel` bounds
the recursion; every step consumes at least one input character, so
`fuel = s.length` (see `replaceLazy`) reproduces the unbounded behaviour. -/
def replaceLazyF (opn close pre post : Str) : Nat → Str → Str
  | 0, s => s
  | _ + 1, [] => []
  | fuel + 1, c :: rest =>
    match stripPre opn (c :: rest) with
    | some afterOpen =>
      match lazyCapture close afterOpen with
      | some (cap, tail) => pre ++ cap ++ post ++ replaceLazyF opn close pre post fuel tail
      | none => c :: replaceLazyF opn close pre post fuel rest
    | none => c :: replaceLazyF opn close pre post fuel rest

def replaceLazy (opn close pre post s : Str) : Str :=
  replaceLazyF opn close pre post s.length s

/-- `html.replace(/\*\*(.+?)\*\*/g, '<strong>$1</strong>')`. -/
def applyStrong (s : Str) : Str :=
  replaceLazy ['*', '*'] ['*', '*'] ("<strong>".data) ("</strong>".data) s

/-- `html.replace(/\*(.+?)\*/g, '<em>$1</em>')`. -/
def applyEm (s : Str) : Str :=
  replaceLazy ['*'] ['*'] ("<em>".data) ("</em>".data) s

/-- ``html.replace(/`(.+?)`/g, '<code>$1</code>')``. -/
def applyCode (s : Str) : Str :=
  replaceLazy [Char.ofNat 96] [Char.ofNat 96] ("<code>".data) ("</code>".data) s

/-- `renderInlineMarkdown` (lines 492-498): escape, then the three ordered
markup substitutions on the escaped text. -/
def renderInlineMarkdown (text : Str) : Str :=
  applyCode (applyEm (applyStrong (escapeHtml text)))

/-- Prepend a character to the first line of a split. -/
def consHead (c : Char) : List Str → List Str
  | [] => [[c]]
  | l :: ls => (c :: l) :: ls

/-- `text.split(/\r?\n/)`: split on each `\n`, consuming one `\r`
immediately before it; a lone `\r` is not a separator. -/
def splitLines : Str → List Str
  | [] => [[]]
  | c :: rest =>
    if c = '\n' then [] :: splitLines rest
    else if c = '\r' then
      match rest with
      | [] => [[c]]
      | c2 :: rest2 =>
        if c2 = '\n' then [] :: splitLines rest2
        else consHead c (splitLines (c2 :: rest2))
    else consHead c (splitLines rest)

/-- The fragment `\s+(.+)$` of the three line regexes, applied to the text
after the marker: a non-empty whitespace run, then the captured remainder.
`\s+` is greedy; when everything after it would leave `(.+)` empty the
engine backtracks one character, which must then be matchable by `.`. -/
def wsBody (rest : Str) : Option Str :=
  let w := (rest.takeWhile jsWhitespace).length
  let body := rest.drop w
  if w = 0 then none
  else if body ≠ [] then
    if body.all dotChar then some body else none
  else if 2 ≤ w then
    match rest.getLast? with
    | some c => if dotChar c then some [c] else none
    | none => none
  else none

/-- `/^(#{1,3})\s+(.+)$/` (line 350): 1-3 leading `#` (a run of four or
more never matches, since backtracking always leaves a `#` before `\s+`),
whitespace, then the heading text. -/
def headingMatch (l : Str) : Option (Nat × Str) :=
  let k := (l.takeWhile (fun c => c = '#')).length
  if 1 ≤ k ∧ k ≤ 3 then
    match wsBody (l.drop k) with
    | some body => some (k, body)
    | none => none
  else none

/-- `/^[-*]\s+(.+)$/` (line 360). -/
def bulletMatch (l : Str) : Option Str :=
  match l with
  | c :: rest => if c = '-' ∨ c = '*' then wsBody rest else none
  | [] => none

/-- `/^>\s?(.+)$/` (line 368): `>`, optionally one whitespace character
(greedy, given back when `(.+)` would otherwise be empty or unmatchable),
then the captured remainder. -/
def quoteMatch (l : Str) : Option Str :=
  match l with
  | c :: rest =>
    if c = '>' then
      match rest with
      | d :: tail =>
        if jsWhitespace d ∧ tail ≠ [] ∧ tail.all dotChar then some tail
        else if (d :: tail).all dotChar then some (d :: tail)
        else none
      | [] => none
    else none
  | [] => none

def natStr (n : Nat) : Str := (Nat.repr n).data

/-- The three accumulators of `convertMarkdownToHTML` together with the
`html` output being built up. -/
structure MDAcc where
  html : Str
  par : List Str
  items : List Str
  quote : List Str
deriving DecidableEq

/-- `flushParagraph` (lines 320-325): paragraph lines joined by one space. -/
def flushParagraph (a : MDAcc) : MDAcc :=
  if a.par ≠ [] then
    { a with
      html := a.html ++ "<p>".data ++
        renderInlineMarkdown (List.intercalate [' '] a.par) ++ "</p>".data
      par := [] }
  else a

/-- `flushList` (lines 327-332): one `<ul>` with one `<li>` per item. -/
def flushList (a : MDAcc) : MDAcc :=
  if a.items ≠ [] then
    { a with
      html := a.html ++ "<ul>".data ++
        (a.items.map (fun item =>
          "<li>".data ++ renderInlineMarkdown item ++ "</li>".data)).flatten ++
        "</ul>".data
      items := [] }
  else a

/-- `flushBlockquote` (lines 334-339): each line its own `<p>` inside one
`<blockquote>`. -/
def flushBlockquote (a : MDAcc) : MDAcc :=
  if a.quote ≠ [] then
    { a with
      html := a.html ++ "<blockquote>".data ++
        (a.quote.map (fun line =>
          "<p>".data ++ renderInlineMarkdown line ++ "</p>".data)).flatten ++
        "</blockquote>".data
      quote := [] }
  else a

/-- The loop body of `convertMarkdownToHTML` (lines 341-383): trim the
line, then classify as blank / heading / bullet / quote / paragraph text,
in that order, flushing accumulators exactly as the source does. -/
def processLine (a : MDAcc) (rawLine : Str) : MDAcc :=
  let line := trimJS rawLine
  if line = [] then flushBlockquote (flushList (flushParagraph a))
  else
    match headingMatch line with
    | some (lvl, body) =>
      let f := flushBlockquote (flushList (flushParagraph a))
      { f with
        html := f.html ++ "<h".data ++ natStr lvl ++ ">".data ++
          renderInlineMarkdown body ++ "</h".data ++ natStr lvl ++ ">".data }
    | none =>
      match bulletMatch line with
      | some item =>
        let f := flushBlockquote (flushParagraph a)
        { f with items := f.items ++ [item] }
      | none =>
        match quoteMatch line with
        | some q =>
          let f := flushList (flushParagraph a)
          { f with quote := f.quote ++ [q] }
        | none =>
          let f1 := if a.items ≠ [] then flushList a else a
          let f2 := if f1.quote ≠ [] then flushBlockquote f1 else f1
          { f2 with par := f2.par ++ [line] }

/-- `convertMarkdownToHTML` (lines 313-390). -/
def convertMarkdownToHTML (text : Str) : Str :=
  (flushBlockquote (flushList (flushParagraph
    ((splitLines text).foldl processLine ⟨[], [], [], []⟩)))).html

/-- `x || 'd'` on an optional string: `undefined` and the empty string
(both falsy) yield the default. -/
def jsOrStr (o : Option Str) (d : Str) : Str :=
  match o with
  | some s => if s = [] then d else s
  | none => d

/-- The `TextRun` union of the parser: a plain string, or a tagged object
discriminated first by `typeof run === 'string'`, then by the `type`
field (`link` / `image`), with every remaining object a styled span. -/
inductive TextRun where
  | plain (s : Str)
  | link (text url : Option Str)
  | image (url alt : Option Str)
  | span (text : Option Str) (bold italic underline strike : Bool)
deriving DecidableEq

/-- One arm of `renderRuns` (lines 433-465). -/
def renderRun (run : TextRun) : Str :=
  match run with
  | .plain s => escapeHtml s
  | .link text url =>
    "<a class=\"link\" href=\"".data ++ escapeHtml (jsOrStr url ("#".data)) ++
      "\" target=\"_blank\" rel=\"noopener noreferrer\">".data ++
      escapeHtml (jsOrStr text []) ++ "</a>".data
  | .image url alt =>
    "<img src=\"".data ++ escapeHtml (jsOrStr url []) ++ "\" alt=\"".data ++
      escapeHtml (jsOrStr alt []) ++ "\" />".data
  | .span text b i u s =>
    let c0 := escapeHtml (jsOrStr text [])
    let c1 := if b then "<strong>".data ++ c0 ++ "</strong>".data else c0
    let c2 := if i then "<em>".data ++ c1 ++ "</em>".data else c1
    let c3 := if u then "<span class=\"underline\">".data ++ c2 ++ "</span>".data else c2
    if s then "<span class=\"strike\">".data ++ c3 ++ "</span>".data else c3

/-- `renderRuns`: arms rendered in order, joined with `''`. -/
def renderRuns (runs : List TextRun) : Str :=
  (runs.map renderRun).flatten

/-- `runsToText` (lines 467-482): plain-text extraction. -/
def runsToText (runs : List TextRun) : Str :=
  (runs.map (fun run =>
    match run with
    | .plain s => s
    | .link text _ => jsOrStr text []
    | .image _ alt => jsOrStr alt []
    | .span text _ _ _ _ => jsOrStr text [])).flatten

/-- The `ContentBlock` variants used inside `slide.content`; `unknown`
stands for any variant whose tag matches none of the five `if` branches
of `renderSlideContentHTML` (silently skipped). -/
inductive ContentBlock where
  | unordered_list (items : List (List TextRun))
  | ordered_list (items : List (List TextRun))
  | blockquote (content : List (List TextRun))
  | paragraph (content : List TextRun)
  | code (content : Str)
  | image (url alt : Str)
  | unknown
deriving DecidableEq

/-- One iteration of the loop in `renderSlideContentHTML` (lines 392-431). -/
def renderContentBlock (b : ContentBlock) : Str :=
  match b with
  | .unordered_list items =>
    "<ul class=\"slide-bullets\">".data ++
      (items.map (fun item => "<li>".data ++ renderRuns item ++ "</li>".data)).flatten ++
      "</ul>".data
  | .ordered_list items =>
    "<ol class=\"slide-bullets\">".data ++
      (items.map (fun item => "<li>".data ++ renderRuns item ++ "</li>".data)).flatten ++
      "</ol>".data
  | .blockquote content =>
    "<blockquote>".data ++
      (content.map (fun par => "<p>".data ++ renderRuns par ++ "</p>".data)).flatten ++
      "</blockquote>".data
  | .paragraph content =>
    let rawText := trimJS (runsToText content)
    match headingMatch rawText with
    | some (lvl, body) =>
      "<h".data ++ natStr lvl ++ ">".data ++ renderInlineMarkdown body ++
        "</h".data ++ natStr lvl ++ ">".data
    | none => "<p>".data ++ renderRuns content ++ "</p>".data
  | .code content => "<pre><code>".data ++ escapeHtml content ++ "</code></pre>".data
  | .image url alt =>
    "<img src=\"".data ++ escapeHtml url ++ "\" alt=\"".data ++ escapeHtml alt ++ "\" />".data
  | .unknown => []

def renderSlideContentHTML (bs : List ContentBlock) : Str :=
  bs.foldl (fun h b => h ++ renderContentBlock b) []

/-- The `props` mapping of a `meta` block, restricted to the three keys
the renderer reads (values already coerced by `String(...)`). -/
structure MetaProps where
  title : Option Str
  author : Option Str
  date : Option Str
deriving DecidableEq

/-- The top-level `Block` union, discriminated by the `type` tag.  The
first eight constructors are the tags the dispatcher knows; `other`
carries the (possibly absent) `type` string of any unknown block. -/
inductive Block where
  | meta (props : Option MetaProps)
  | doc (content : Option Str)
  | slide (title layout : Option Str) (content : Option (List ContentBlock))
      (bullets : Option (List Str))
  | sheet (name : Option Str) (cols : Option (List Str))
      (data : Option (List ((Nat × Nat) × Str)))
  | table (caption style : Option Str) (headers : List Str)
      (alignment : Option (List Str)) (rows : List (List Str))
  | chart (title chartType : Str) (dataCount : Nat)
  | diagram (title : Option Str) (code : Str)
  | osfcode (language : Str) (caption : Option Str) (code : Str)
  | other (tag : Option Str)
deriving DecidableEq

/-- `block.type === 'meta'`. -/
def Block.isMetaB : Block → Bool
  | .meta _ => true
  | _ => false

/-- `generateDocHTML` (lines 187-196); `if (block.content)` is a JS
truthiness test, so an absent or empty string contributes nothing. -/
def generateDocHTML (content : Option Str) : Str :=
  "<div class=\"block block-doc\">".data ++
    (match content with
     | some c => if c = [] then [] else convertMarkdownToHTML c
     | none => []) ++
    "</div>".data

/-- `generateSlideHTML` (lines 198-215). -/
def generateSlideHTML (title layout : Option Str) (content : Option (List ContentBlock))
    (bullets : Option (List Str)) : Str :=
  let t := jsOrStr title ("Untitled Slide".data)
  let lay := jsOrStr layout ("TitleAndContent".data)
  let bulletsPart :=
    match bullets with
    | some bs =>
      if bs ≠ [] then
        "<ul class=\"slide-bullets\">".data ++
          (bs.map (fun item => "<li>".data ++ escapeHtml item ++ "</li>".data)).flatten ++
          "</ul>".data
      else []
    | none => []
  "<div class=\"block block-slide layout-".data ++ escapeHtml lay ++ "\">".data ++
  "<h2 class=\"slide-title\">".data ++ escapeHtml t ++ "</h2>".data ++
  (match content with
   | some cs =>
     if cs ≠ [] then
       "<div class=\"slide-content\">".data ++ renderSlideContentHTML cs ++ "</div>".data
     else bulletsPart
   | none => bulletsPart) ++
  "</div>".data

/-- `block.data?.['r,c']`: exact-key lookup in the sparse cell mapping. -/
def cellValue (data : List ((Nat × Nat) × Str)) (r c : Nat) : Option Str :=
  (data.find? (fun kv => kv.1 = (r, c))).map (fun kv => kv.2)

/-- The `else` row of the sheet renderer (line 248). -/
def sheetEmptyRow (cs : List Str) : Str :=
  "<tr><td class=\"sheet-empty\" colspan=\"".data ++ natStr (max cs.length 1) ++
    "\">No sheet data</td></tr>".data

/-- `generateSheetHTML` (lines 217-254).  Coordinates are modelled as the
numbers the well-formed `"r,c"` keys parse to; `c[0] || 1` maps a zero
coordinate to 1 before `Math.max` is taken over the non-empty key list. -/
def generateSheetHTML (name : Option Str) (cols : Option (List Str))
    (data : Option (List ((Nat × Nat) × Str))) : Str :=
  let nm := jsOrStr name ("Sheet".data)
  let cs := cols.getD []
  let headPart :=
    if cs ≠ [] then
      "<thead><tr>".data ++
        (cs.foldl (fun h col => h ++ "<th>".data ++ escapeHtml col ++ "</th>".data) []) ++
        "</tr></thead>".data
    else []
  let bodyPart :=
    match data with
    | some d =>
      if d ≠ [] then
        let maxRow := ((d.map (fun kv => if kv.1.1 = 0 then 1 else kv.1.1)).foldl max 1)
        let maxCol := ((d.map (fun kv => if kv.1.2 = 0 then 1 else kv.1.2)).foldl max 1)
        (List.range' 1 maxRow).foldl (fun h r =>
          ((List.range' 1 maxCol).foldl (fun h2 c =>
            h2 ++ "<td>".data ++ escapeHtml ((cellValue d r c).getD []) ++ "</td>".data)
            (h ++ "<tr>".data)) ++ "</tr>".data) []
      else sheetEmptyRow cs
    | none => sheetEmptyRow cs
  "<div class=\"block block-sheet\">".data ++
  "<h3 class=\"sheet-name\">".data ++ escapeHtml nm ++ "</h3>".data ++
  "<table class=\"sheet-table\">".data ++ headPart ++
  "<tbody>".data ++ bodyPart ++ "</tbody></table>".data ++
  "</div>".data

/-- `block.alignment?.[index] || 'left'`. -/
def alignAt (alignment : Option (List Str)) (i : Nat) : Str :=
  jsOrStr (alignment.bind (fun a => a.get? i)) ("left".data)

/-- `generateTableHTML` (lines 256-282); note the alignment value is
interpolated into the `style` attribute unescaped, exactly as in source. -/
def generateTableHTML (caption style : Option Str) (headers : List Str)
    (alignment : Option (List Str)) (rows : List (List Str)) : Str :=
  "<div class=\"block block-table\">".data ++
  (match caption with
   | some c =>
     if c ≠ [] then "<p class=\"table-caption\">".data ++ escapeHtml c ++ "</p>".data else []
   | none => []) ++
  "<table class=\"osf-table ".data ++ escapeHtml (jsOrStr style ("bordered".data)) ++ "\">".data ++
  "<thead><tr>".data ++
  (headers.enum.foldl (fun h p =>
    h ++ "<th style=\"text-align: ".data ++ alignAt alignment p.1 ++ ";\">".data ++
      escapeHtml p.2 ++ "</th>".data) []) ++
  "</tr></thead><tbody>".data ++
  (rows.foldl (fun h row =>
    ((row.enum.foldl (fun h2 p =>
      h2 ++ "<td style=\"text-align: ".data ++ alignAt alignment p.1 ++ ";\">".data ++
        escapeHtml p.2 ++ "</td>".data) (h ++ "<tr>".data)) ++ "</tr>".data)) []) ++
  "</tbody></table></div>".data

/-- `generateChartHTML` (lines 284-291). -/
def generateChartHTML (title chartType : Str) (dataCount : Nat) : Str :=
  "<div class=\"block block-chart\">".data ++
  "<h3 class=\"chart-title\">".data ++ escapeHtml title ++ "</h3>".data ++
  "<p class=\"chart-meta\">Chart type: ".data ++ escapeHtml chartType ++ "</p>".data ++
  "<p class=\"chart-meta\">Series: ".data ++ natStr dataCount ++ "</p>".data ++
  "</div>".data

/-- `generateDiagramHTML` (lines 293-301). -/
def generateDiagramHTML (title : Option Str) (code : Str) : Str :=
  "<div class=\"block block-diagram\">".data ++
  (match title with
   | some t =>
     if t ≠ [] then "<h3 class=\"diagram-title\">".data ++ escapeHtml t ++ "</h3>".data else []
   | none => []) ++
  "<pre class=\"diagram-code\">".data ++ escapeHtml code ++ "</pre>".data ++
  "</div>".data

/-- `generateCodeHTML` (lines 303-311). -/
def generateCodeHTML (language : Str) (caption : Option Str) (code : Str) : Str :=
  "<div class=\"block block-code\">".data ++
  (match caption with
   | some c =>
     if c ≠ [] then "<p class=\"code-caption\">".data ++ escapeHtml c ++ "</p>".data else []
   | none => []) ++
  "<pre><code class=\"language-".data ++ escapeHtml language ++ "\">".data ++
  escapeHtml code ++ "</code></pre>".data ++
  "</div>".data

/-- The `switch (block.type)` of `generateHTML` (lines 117-148): a `meta`
block contributes nothing to the content stream, an unknown block becomes
the generic labelled placeholder (`block.type ?? 'unknown'`; `??` keeps an
empty string, unlike `||`). -/
def renderBlock (b : Block) : Str :=
  match b with
  | .meta _ => []
  | .doc content => generateDocHTML content
  | .slide t l c bs => generateSlideHTML t l c bs
  | .sheet n c d => generateSheetHTML n c d
  | .table c s h a r => generateTableHTML c s h a r
  | .chart t ct n => generateChartHTML t ct n
  | .diagram t c => generateDiagramHTML t c
  | .osfcode l c code => generateCodeHTML l c code
  | .other tag =>
    let ft := tag.getD ("unknown".data)
    "<div class=\"block block-".data ++ escapeHtml ft ++ "\">Block type: ".data ++
      escapeHtml ft ++ "</div>".data

/-- The content-accumulation loop of `generateHTML`
(`let content = ''; for (const block of document.blocks) content += ...`). -/
def contentOf (blocks : List Block) : Str :=
  blocks.foldl (fun h b => h ++ renderBlock b) []

/-- `getThemeCSS` (lines 536-606): one fixed stylesheet; the `theme`
parameter is accepted but never read (reserved for future variation). -/
def getThemeCSS (theme : Str) : Str :=
  "\n        * \x7b box-sizing: border-box; margin: 0; padding: 0; \x7d\n        body \x7b\n            font-family: -apple-system, BlinkMacSystemFont, \"Segoe UI\", Roboto, \"Helvetica Neue\", Arial, sans-serif;\n            line-height: 1.6;\n            color: #333;\n            background: #fff;\n            padding: 20px;\n        \x7d\n        .header \x7b\n            border-bottom: 2px solid #e1e4e8;\n            padding-bottom: 20px;\n            margin-bottom: 30px;\n        \x7d\n        .header h1 \x7b font-size: 2.5em; margin-bottom: 10px; \x7d\n        .author, .date \x7b color: #666; font-size: 0.9em; \x7d\n        .block \x7b margin: 30px 0; padding: 20px; border-radius: 4px; \x7d\n        .block-doc \x7b background: #f8f9fa; \x7d\n        .block-slide \x7b background: #e8f4f8; border-left: 4px solid #0366d6; \x7d\n        .block-sheet \x7b background: #f0f7f0; \x7d\n        .block-table \x7b background: #f8f9fa; \x7d\n        .block-chart \x7b background: #f6f2ff; \x7d\n        .block-diagram \x7b background: #fff7ed; \x7d\n        .block-code \x7b background: #f5f5f5; \x7d\n        .slide-title \x7b color: #0366d6; margin-bottom: 15px; \x7d\n        .sheet-table,\n        .osf-table \x7b\n            width: 100%;\n            border-collapse: collapse;\n            margin-top: 15px;\n        \x7d\n        .sheet-table th, .sheet-table td,\n        .osf-table th, .osf-table td \x7b\n            border: 1px solid #ddd;\n            padding: 8px;\n            text-align: left;\n        \x7d\n        .sheet-table th \x7b background: #e8f4e8; font-weight: 600; \x7d\n        .osf-table.striped tbody tr:nth-child(odd) \x7b background: #f3f4f6; \x7d\n        .table-caption \x7b font-style: italic; color: #6b7280; margin-bottom: 8px; \x7d\n        h1, h2, h3 \x7b margin: 20px 0 10px; \x7d\n        p \x7b margin: 10px 0; \x7d\n        ul, ol \x7b margin: 10px 0; padding-left: 30px; \x7d\n        blockquote \x7b\n            border-left: 4px solid #cbd5f5;\n            padding-left: 12px;\n            margin: 12px 0;\n            color: #4b5563;\n            background: #f8fafc;\n        \x7d\n        code \x7b background: #f0f0f0; padding: 2px 6px; border-radius: 3px; font-family: monospace; \x7d\n        .footer \x7b\n            margin-top: 40px;\n            padding-top: 20px;\n            border-top: 1px solid #e1e4e8;\n            text-align: center;\n        \x7d\n        button \x7b\n            padding: 8px 16px;\n            font-size: 14px;\n            border: 1px solid #0366d6;\n            background: #0366d6;\n            color: white;\n            border-radius: 4px;\n            cursor: pointer;\n        \x7d\n        button:hover \x7b background: #0256c5; \x7d\n    ".data

/-- The `csp` string of `generateHTML` (line 150). -/
def cspStr (nonce cspSource : Str) : Str :=
  "default-src \x27none\x27; img-src ".data ++ cspSource ++
    " https: data:; style-src \x27unsafe-inline\x27; script-src \x27nonce-".data ++ nonce ++
    "\x27;".data

/-- `metaBlock?.props?`: the property map of the found meta block, when
both the block and its `props` are present. -/
def metaPropsOf : Option Block → Option MetaProps
  | some (.meta (some p)) => some p
  | _ => none

/-- The HTML-document template literal of `generateHTML` (lines 152-184),
with the found meta block, the theme stylesheet, the CSP string and the
accumulated block content spliced in. -/
def docTemplate (metaB : Option Block) (theme nonce csp content : Str) : Str :=
  let props := metaPropsOf metaB
  "\n<!DOCTYPE html>\n<html lang=\"en\">\n<head>\n    <meta charset=\"UTF-8\">\n    <meta name=\"viewport\" content=\"width=device-width, initial-scale=1.0\">\n    <meta http-equiv=\"Content-Security-Policy\" content=\"".data ++
  csp ++
  "\">\n    <title>".data ++
  escapeHtml (jsOrStr (props.bind (fun p => p.title)) ("OSF Preview".data)) ++
  "</title>\n    <style>\n        ".data ++
  getThemeCSS theme ++
  "\n    </style>\n</head>\n<body>\n    <div class=\"header\">\n        <h1>".data ++
  escapeHtml (jsOrStr (props.bind (fun p => p.title)) ("Untitled Document".data)) ++
  "</h1>\n        ".data ++
  (match props.bind (fun p => p.author) with
   | some a =>
     if a = [] then [] else "<p class=\"author\">By ".data ++ escapeHtml a ++ "</p>".data
   | none => []) ++
  "\n        ".data ++
  (match props.bind (fun p => p.date) with
   | some d =>
     if d = [] then [] else "<p class=\"date\">".data ++ escapeHtml d ++ "</p>".data
   | none => []) ++
  "\n    </div>\n    <div class=\"content\">\n        ".data ++
  content ++
  "\n    </div>\n    <div class=\"footer\">\n        <button nonce=\"".data ++
  nonce ++
  "\" onclick=\"refresh()\">↻ Refresh</button>\n    </div>\n    <script nonce=\"".data ++
  nonce ++
  "\">\n        const vscode = acquireVsCodeApi();\n        function refresh() \x7b\n            vscode.postMessage(\x7b command: \x27refresh\x27 \x7d);\n        \x7d\n    </script>\n</body>\n</html>\n    ".data

/-- `generateHTML` (lines 111-185): find the first `meta` block, accumulate
the dispatched content, build the CSP string, splice into the template. -/
def generateHTML (blocks : List Block) (theme nonce cspSource : Str) : Str :=
  let metaB := blocks.find? Block.isMetaB
  let content := contentOf blocks
  let csp := cspStr nonce cspSource
  docTemplate metaB theme nonce csp content

/-- The `csp` string of `generateErrorHTML` (line 510); the `cspSource`
parameter of that function is not used by it. -/
def errCspStr (nonce : Str) : Str :=
  "default-src \x27none\x27; style-src \x27unsafe-inline\x27; script-src \x27nonce-".data ++
    nonce ++ "\x27;".data

/-- The first literal run of the error-page template (lines 511-517). -/
def errLit1 : Str :=
  "\n<!DOCTYPE html>\n<html lang=\"en\">\n<head>\n    <meta charset=\"UTF-8\">\n    <meta name=\"viewport\" content=\"width=device-width, initial-scale=1.0\">\n    <meta http-equiv=\"Content-Security-Policy\" content=\"".data

/-- The literal run between the CSP value and the escaped message
(lines 517-529), ending with the opening `<pre>`. -/
def errLit2 : Str :=
  "\">\n    <title>Parse Error</title>\n    <style>\n        body \x7b font-family: sans-serif; padding: 20px; background: #1e1e1e; color: #d4d4d4; \x7d\n        .error \x7b background: #5a1d1d; border-left: 4px solid #f14c4c; padding: 15px; border-radius: 4px; \x7d\n        h1 \x7b color: #f14c4c; margin-top: 0; \x7d\n        pre \x7b background: #252526; padding: 10px; border-radius: 4px; overflow-x: auto; \x7d\n    </style>\n</head>\n<body>\n    <div class=\"error\">\n        <h1>Parse Error</h1>\n        <pre>".data

/-- The error-page template up to and including the `<pre>` that holds the
escaped message (lines 511-529). -/
def errShellHead (nonce : Str) : Str :=
  errLit1 ++ errCspStr nonce ++ errLit2

/-- The error-page template after the escaped message (lines 529-533). -/
def errShellTail : Str :=
  "</pre>\n    </div>\n</body>\n</html>\n    ".data

/-- `generateErrorHTML` (lines 509-534). -/
def generateErrorHTML (errorMessage nonce cspSource : Str) : Str :=
  errShellHead nonce ++ escapeHtml errorMessage ++ errShellTail

/-- The `try`/`catch` of `updatePreview` (lines 57-66), with the outcome of
the external `parse` call made explicit: on success the parsed block list
is rendered, on failure (`error?.message || 'Preview failed'`) the
dedicated error page replaces the whole output. -/
def previewHtml (res : Except (Option Str) (List Block)) (theme nonce cspSource : Str) : Str :=
  match res with
  | .ok blocks => generateHTML blocks theme nonce cspSource
  | .error m => generateErrorHTML (jsOrStr m ("Preview failed".data)) nonce cspSource

/-! ## Specification-side definitions

These state, in the words of the specification, what the implementation is
claimed to compute; the theorems below compare them with the definitions
transcribed from the source. -/

/-- Per the spec: the escaping primitive replaces exactly the five
characters `& < > " '` by their named entities and leaves every other
character alone, in a single pass (no entity is escaped twice). -/
def escCharSpec (c : Char) : Str :=
  if c = '&' then "&amp;".data
  else if c = '<' then "&lt;".data
  else if c = '>' then "&gt;".data
  else if c = '"' then "&quot;".data
  else if c = '\x27' then "&#39;".data
  else [c]

/-- Per the spec: a styled span is the escaped text wrapped innermost-first
in `<strong>` if bold, `<em>` if italic, the underline span if underline,
the strike span if strike. -/
def wrapIf (flag : Bool) (opn close x : Str) : Str :=
  if flag then opn ++ x ++ close else x

def styledSpanSpec (text : Str) (bold italic underline strike : Bool) : Str :=
  wrapIf strike ("<span class=\"strike\">".data) ("</span>".data)
    (wrapIf underline ("<span class=\"underline\">".data) ("</span>".data)
      (wrapIf italic ("<em>".data) ("</em>".data)
        (wrapIf bold ("<strong>".data) ("</strong>".data) (escapeHtml text))))

/-! ## Helper lemmas -/

theorem replaceAll_append (c : Char) (r a b : Str) :
    replaceAll c r (a ++ b) = replaceAll c r a ++ replaceAll c r b := by
  simp [replaceAll]

theorem escapeHtml_append (a b : Str) :
    escapeHtml (a ++ b) = escapeHtml a ++ escapeHtml b := by
  simp [escapeHtml, replaceAll_append]

theorem escapeHtml_single (c : Char) : escapeHtml [c] = escCharSpec c := by
  by_cases h1 : c = '&'
  · subst h1; decide
  by_cases h2 : c = '<'
  · subst h2; decide
  by_cases h3 : c = '>'
  · subst h3; decide
  by_cases h4 : c = '"'
  · subst h4; decide
  by_cases h5 : c = '\x27'
  · subst h5; decide
  simp [escapeHtml, replaceAll, escCharSpec, h1, h2, h3, h4, h5]

/-- Folding `h ++ f x` over a list from an accumulator is appending the
concatenation of the images: the shape of every `html += ...` loop here. -/
theorem foldl_append_form {α : Type} (step : Str → α → Str) (f : α → Str)
    (hstep : ∀ h x, step h x = h ++ f x) :
    ∀ (l : List α) (a : Str), l.foldl step a = a ++ (l.map f).flatten
  | [], a => by simp
  | x :: l, a => by
    rw [List.foldl_cons, hstep, foldl_append_form step f hstep l (a ++ f x)]
    simp

theorem contentOf_eq (blocks : List Block) :
    contentOf blocks = (blocks.map renderBlock).flatten := by
  simpa using foldl_append_form _ renderBlock (fun h x => rfl) blocks []

/-! ## C1 — the escaping primitive -/

theorem escapeHtml_flatMap (s : Str) : escapeHtml s = s.flatMap escCharSpec := by
  induction s with
  | nil => decide
  | cons c s ih =>
    have h : (c :: s) = [c] ++ s := rfl
    rw [h, escapeHtml_append, escapeHtml_single]
    simp [List.flatMap_cons, escCharSpec, ih]

/-- C1: `escapeHtml` replaces exactly the five characters `& < > " '` by
their named entities, character by character — because the ampersand
replacement runs first, the sequential chain of five replacements equals
one simultaneous single pass, so entities introduced by the later
replacements are never double-escaped.  The function is a total pure
function with no failure mode. -/
theorem escapeHtml_is_single_pass (s : Str) :
    escapeHtml s = s.flatMap escCharSpec :=
  escapeHtml_flatMap s

/-! ## C7 — styled-run composition -/

/-- C7: a styled span renders as the escaped run text wrapped
innermost-first in `<strong>` (bold), then `<em>` (italic), then the
underline span, then the strike span; the four flags are independent and
the nesting order is fixed, so bold together with italic always yields
`<em><strong>text</strong></em>`. -/
theorem styled_span_composition (text : Option Str) (b i u st : Bool) :
    renderRuns [TextRun.span text b i u st] =
      styledSpanSpec (jsOrStr text []) b i u st ∧
    renderRuns [TextRun.span text true true false false] =
      "<em><strong>".data ++ escapeHtml (jsOrStr text []) ++ "</strong></em>".data := by
  constructor
  · cases b <;> cases i <;> cases u <;> cases st <;>
      simp [renderRuns, renderRun, styledSpanSpec, wrapIf]
  · simp [renderRuns, renderRun]

/-! ## C9 — theme fallback -/

/-- C9: theme stylesheet selection never fails and ignores the name: for
every theme string, including unrecognized ones, the stylesheet and the
whole rendered document equal the ones produced for `"default"`. -/
theorem theme_name_irrelevant (theme : Str) (blocks : List Block) (nonce cspSource : Str) :
    getThemeCSS theme = getThemeCSS ("default".data) ∧
    generateHTML blocks theme nonce cspSource =
      generateHTML blocks ("default".data) nonce cspSource :=
  ⟨rfl, rfl⟩

/-! ## C6 — unknown block tolerance -/

/-- C6: a block with an unknown type tag renders as the generic
placeholder `<div>` holding the escaped literal tag, and rendering
continues — the content of any document is the in-order concatenation of
its blocks' fragments, with the unknown block contributing exactly the
placeholder and every subsequent block still rendered.  (The dispatcher is
a total function: it cannot throw.) -/
theorem unknown_block_tolerance (pre : List Block) (tag : Option Str) (post : List Block) :
    contentOf (pre ++ Block.other tag :: post) =
      contentOf pre ++
        ("<div class=\"block block-".data ++ escapeHtml (tag.getD ("unknown".data)) ++
          "\">Block type: ".data ++ escapeHtml (tag.getD ("unknown".data)) ++ "</div>".data) ++
        contentOf post := by
  simp [contentOf_eq, renderBlock]

/-! ## C10 — only the first meta block matters -/

theorem find?_append_of_all_false {α : Type} (p : α → Bool) :
    ∀ (l1 l2 : List α), (∀ b ∈ l1, p b = false) → (l1 ++ l2).find? p = l2.find? p
  | [], _, _ => rfl
  | x :: l1, l2, h => by
    have hx : p x = false := h x (List.mem_cons_self x l1)
    simp only [List.cons_append, List.find?_cons, hx]
    exact find?_append_of_all_false p l1 l2 (fun b hb => h b (List.mem_cons_of_mem x hb))

/-- C10: with several `meta` blocks, the header is taken from the first
one in document order and every `meta` block is excluded from the content
region — so a later `meta` block can be removed without changing the
rendered document at all, and `find?` indeed selects the first one. -/
theorem first_meta_wins (pre mid post : List Block) (p1 p2 : Option MetaProps)
    (theme nonce cspSource : Str) (h : ∀ b ∈ pre, Block.isMetaB b = false) :
    generateHTML (pre ++ Block.meta p1 :: (mid ++ Block.meta p2 :: post)) theme nonce cspSource =
      generateHTML (pre ++ Block.meta p1 :: (mid ++ post)) theme nonce cspSource ∧
    (pre ++ Block.meta p1 :: (mid ++ Block.meta p2 :: post)).find? Block.isMetaB =
      some (Block.meta p1) := by
  have hf : ∀ (rest : List Block),
      (pre ++ Block.meta p1 :: rest).find? Block.isMetaB = some (Block.meta p1) := by
    intro rest
    rw [find?_append_of_all_false Block.isMetaB pre _ h]
    simp [List.find?_cons, Block.isMetaB]
  constructor
  · show docTemplate _ _ _ _ _ = docTemplate _ _ _ _ _
    rw [hf (mid ++ Block.meta p2 :: post), hf (mid ++ post)]
    have hc : contentOf (pre ++ Block.meta p1 :: (mid ++ Block.meta p2 :: post)) =
        contentOf (pre ++ Block.meta p1 :: (mid ++ post)) := by
      simp [contentOf_eq, renderBlock]
    rw [hc]
  · exact hf (mid ++ Block.meta p2 :: post)

def exW10pre : List Block := [Block.doc none]

def exW10p1 : Option MetaProps := some ⟨some ("First".data), none, none⟩

def exW10p2 : Option MetaProps := some ⟨some ("Second".data), some ("B".data), none⟩

theorem first_meta_wins_witness :
    generateHTML (exW10pre ++ Block.meta exW10p1 :: ([] ++ Block.meta exW10p2 :: []))
        ("default".data) ("n0".data) ("vscode-resource:".data) =
      generateHTML (exW10pre ++ Block.meta exW10p1 :: ([] ++ [])) ("default".data)
        ("n0".data) ("vscode-resource:".data) ∧
    (exW10pre ++ Block.meta exW10p1 :: ([] ++ Block.meta exW10p2 :: [])).find? Block.isMetaB =
      some (Block.meta exW10p1) :=
  first_meta_wins exW10pre [] [] exW10p1 exW10p2 ("default".data) ("n0".data)
    ("vscode-resource:".data) (by decide)

/-! ## C8 — parse failure produces the dedicated error page -/

theorem errLit2_split :
    errLit2 = "\">\n    <title>Parse Error</title>\n    <style>\n        body \x7b font-family: sans-serif; padding: 20px; background: #1e1e1e; color: #d4d4d4; \x7d\n        .error \x7b background: #5a1d1d; border-left: 4px solid #f14c4c; padding: 15px; border-radius: 4px; \x7d\n        h1 \x7b color: #f14c4c; margin-top: 0; \x7d\n        pre \x7b background: #252526; padding: 10px; border-radius: 4px; overflow-x: auto; \x7d\n    </style>\n</head>\n<body>\n    <div class=\"error\">\n        <h1>Parse Error</h1>\n        ".data ++ "<pre>".data := by
  decide

/-- C8: when the upstream parse fails with a message, the produced output
is exactly the dedicated error-page shell with the HTML-escaped failure
message spliced between the shell's `<pre>` opening and its tail — no
block content appears (the error branch does not consume a document), and
a successful parse takes the ordinary full-render branch (all-or-nothing). -/
theorem parse_failure_fallback (m theme nonce cspSource : Str) :
    previewHtml (Except.error (some m)) theme nonce cspSource =
      errShellHead nonce ++
        escapeHtml (if m = [] then "Preview failed".data else m) ++ errShellTail ∧
    (∃ u, errShellHead nonce = u ++ "<pre>".data) ∧
    (∀ blocks, previewHtml (Except.ok blocks) theme nonce cspSource =
      generateHTML blocks theme nonce cspSource) := by
  refine ⟨rfl, ⟨errLit1 ++ errCspStr nonce ++
    "\">\n    <title>Parse Error</title>\n    <style>\n        body \x7b font-family: sans-serif; padding: 20px; background: #1e1e1e; color: #d4d4d4; \x7d\n        .error \x7b background: #5a1d1d; border-left: 4px solid #f14c4c; padding: 15px; border-radius: 4px; \x7d\n        h1 \x7b color: #f14c4c; margin-top: 0; \x7d\n        pre \x7b background: #252526; padding: 10px; border-radius: 4px; overflow-x: auto; \x7d\n    </style>\n</head>\n<body>\n    <div class=\"error\">\n        <h1>Parse Error</h1>\n        ".data, ?_⟩, fun _ => rfl⟩
  show errShellHead nonce = _
  rw [errShellHead, errLit2_split]
  simp [List.append_assoc]

/-! ## C3 / C4 — the markdown state machine -/

theorem consHead_ne_nil (c : Char) (ls : List Str) : consHead c ls ≠ [] := by
  cases ls <;> simp [consHead]

theorem splitLines_cons (c : Char) (rest : Str) :
    splitLines (c :: rest) =
      if c = '\n' then [] :: splitLines rest
      else if c = '\r' then
        match rest with
        | [] => [[c]]
        | c2 :: rest2 =>
          if c2 = '\n' then [] :: splitLines rest2
          else consHead c (splitLines (c2 :: rest2))
      else consHead c (splitLines rest) := by
  rw [splitLines.eq_def]
  rfl

theorem splitLines_ne_nil (t : Str) : splitLines t ≠ [] := by
  cases t with
  | nil => simp [splitLines]
  | cons c rest =>
    rw [splitLines_cons]
    split
    · simp
    · split
      · cases rest with
        | nil => simp
        | cons c2 rest2 =>
          by_cases h2 : c2 = '\n'
          · simp [h2]
          · simp [h2, consHead_ne_nil]
      · exact consHead_ne_nil _ _

theorem headingMatch_nil : headingMatch ([] : Str) = none := by decide

theorem headingMatch_nonhash (c : Char) (rest : Str) (hc : c ≠ '#') :
    headingMatch (c :: rest) = none := by
  simp [headingMatch, List.takeWhile, hc]

theorem bulletMatch_shape (l item : Str) (hb : bulletMatch l = some item) :
    ∃ c rest, l = c :: rest ∧ (c = '-' ∨ c = '*') := by
  match l with
  | [] => simp [bulletMatch] at hb
  | c :: rest =>
    by_cases hc : c = '-' ∨ c = '*'
    · exact ⟨c, rest, rfl, hc⟩
    · simp [bulletMatch, hc] at hb

theorem flushParagraph_of_empty (a : MDAcc) (h : a.par = []) : flushParagraph a = a := by
  simp [flushParagraph, h]

theorem flushList_of_empty (a : MDAcc) (h : a.items = []) : flushList a = a := by
  simp [flushList, h]

theorem flushBlockquote_of_empty (a : MDAcc) (h : a.quote = []) : flushBlockquote a = a := by
  simp [flushBlockquote, h]

/-- A bullet line flushes the paragraph and blockquote accumulators (but
not the list) and appends its captured item text. -/
theorem processLine_bullet (a : MDAcc) (l item : Str)
    (hb : bulletMatch (trimJS l) = some item) :
    processLine a l =
      { flushBlockquote (flushParagraph a) with
        items := (flushBlockquote (flushParagraph a)).items ++ [item] } := by
  obtain ⟨c, rest, hl, hc⟩ := bulletMatch_shape _ _ hb
  have hne : trimJS l ≠ [] := by rw [hl]; simp
  have hh : headingMatch (trimJS l) = none := by
    rw [hl]
    exact headingMatch_nonhash c rest (by rcases hc with h | h <;> subst h <;> decide)
  simp [processLine, hne, hh, hb]

/-- Processing a run of contiguous bullet lines from a state whose
paragraph and blockquote accumulators are empty only extends the list
accumulator, one item per line, in input order. -/
theorem foldl_bullets (ls : List Str) :
    ∀ (h : Str) (is : List Str),
      (∀ l ∈ ls, (bulletMatch (trimJS l)).isSome = true) →
      ls.foldl processLine ⟨h, [], is, []⟩ =
        ⟨h, [], is ++ ls.map (fun l => (bulletMatch (trimJS l)).getD []), []⟩ := by
  induction ls with
  | nil => intro h is _; simp
  | cons l ls ih =>
    intro h is hall
    have hl : (bulletMatch (trimJS l)).isSome = true := hall l (List.mem_cons_self l ls)
    obtain ⟨item, hitem⟩ := Option.isSome_iff_exists.mp hl
    have hstep : processLine ⟨h, [], is, []⟩ l = ⟨h, [], is ++ [item], []⟩ := by
      rw [processLine_bullet _ _ _ hitem]
      rw [flushParagraph_of_empty _ rfl, flushBlockquote_of_empty _ rfl]
    rw [List.foldl_cons, hstep,
      ih h (is ++ [item]) (fun x hx => hall x (List.mem_cons_of_mem l hx))]
    simp [hitem]

/-- C3: when every line of a `doc` block's content is a bullet line, the
converter emits a single `<ul>` containing exactly one `<li>` per line,
in input order — contiguous bullets accumulate into one list. -/
theorem bullet_run_single_ul (text : Str)
    (hb : ∀ l ∈ splitLines text, (bulletMatch (trimJS l)).isSome = true) :
    convertMarkdownToHTML text =
      "<ul>".data ++
        ((splitLines text).map (fun l =>
          "<li>".data ++ renderInlineMarkdown ((bulletMatch (trimJS l)).getD []) ++
            "</li>".data)).flatten ++
        "</ul>".data := by
  unfold convertMarkdownToHTML
  rw [foldl_bullets (splitLines text) [] [] hb]
  have hne : (splitLines text).map (fun l => (bulletMatch (trimJS l)).getD []) ≠ [] := by
    simpa using splitLines_ne_nil text
  rw [flushParagraph_of_empty _ rfl]
  have h1 : flushList
      ⟨[], [], [] ++ (splitLines text).map (fun l => (bulletMatch (trimJS l)).getD []), []⟩ =
      ⟨"<ul>".data ++
        (((splitLines text).map (fun l => (bulletMatch (trimJS l)).getD [])).map
          (fun item => "<li>".data ++ renderInlineMarkdown item ++ "</li>".data)).flatten ++
        "</ul>".data, [], [], []⟩ := by
    simp [flushList, hne]
  rw [h1, flushBlockquote_of_empty _ rfl]
  simp [List.map_map, Function.comp_def]

def exBullets : Str := "- a\n- b\n- c".data

theorem bullet_run_single_ul_witness :
    convertMarkdownToHTML exBullets = "<ul><li>a</li><li>b</li><li>c</li></ul>".data := by
  have h := bullet_run_single_ul exBullets (by decide)
  rw [h]; decide

/-- A heading line flushes all three accumulators (paragraph, list,
blockquote, in that order) and emits a heading tag at the level given by
the number of `#`, with inline-markdown rendering applied to the rest. -/
theorem processLine_heading (a : MDAcc) (l : Str) (k : Nat) (body : Str)
    (hh : headingMatch (trimJS l) = some (k, body)) :
    processLine a l =
      { flushBlockquote (flushList (flushParagraph a)) with
        html := (flushBlockquote (flushList (flushParagraph a))).html ++
          "<h".data ++ natStr k ++ ">".data ++ renderInlineMarkdown body ++
          "</h".data ++ natStr k ++ ">".data } := by
  have hne : trimJS l ≠ [] := by
    intro h0
    rw [h0, headingMatch_nil] at hh
    exact Option.noConfusion hh
  simp [processLine, hne, hh]

/-- C4: the heading rule of the Block Markdown Converter — a trimmed line
of 1-3 `#` plus whitespace flushes all three accumulators and emits the
matching heading tag (stated by `processLine_heading`), and the doc
content `"# Title\n\nBody text"` round-trips to
`<h1>Title</h1><p>Body text</p>`. -/
theorem heading_flush_and_emit :
    (∀ (a : MDAcc) (l : Str) (k : Nat) (body : Str),
      headingMatch (trimJS l) = some (k, body) →
      processLine a l =
        { flushBlockquote (flushList (flushParagraph a)) with
          html := (flushBlockquote (flushList (flushParagraph a))).html ++
            "<h".data ++ natStr k ++ ">".data ++ renderInlineMarkdown body ++
            "</h".data ++ natStr k ++ ">".data }) ∧
    convertMarkdownToHTML ("# Title\n\nBody text".data) =
      "<h1>Title</h1><p>Body text</p>".data :=
  ⟨processLine_heading, by decide⟩

def exHeadLine : Str := "# Title".data

def exTitle : Str := "Title".data

def emptyAcc : MDAcc := ⟨[], [], [], []⟩

theorem heading_flush_and_emit_witness :
    processLine emptyAcc exHeadLine = ⟨"<h1>Title</h1>".data, [], [], []⟩ := by
  have h := heading_flush_and_emit.1 emptyAcc exHeadLine 1 exTitle (by decide)
  rw [h]; decide

/-! ## C5 — sheet densification -/

/-- Per the spec: the rendered row extent is the maximum row index present
across all keys, with a minimum of 1. -/
def sheetMaxRow (d : List ((Nat × Nat) × Str)) : Nat :=
  d.foldl (fun m kv => max m kv.1.1) 1

/-- Per the spec: the rendered column extent, minimum 1. -/
def sheetMaxCol (d : List ((Nat × Nat) × Str)) : Nat :=
  d.foldl (fun m kv => max m kv.1.2) 1

/-- Per the spec: one dense row — each cell holds the escaped value stored
under its coordinate key, or the empty string when the key is absent. -/
def sheetRowSpec (d : List ((Nat × Nat) × Str)) (r maxCol : Nat) : Str :=
  "<tr>".data ++
    ((List.range' 1 maxCol).map (fun c =>
      "<td>".data ++ escapeHtml ((cellValue d r c).getD []) ++ "</td>".data)).flatten ++
    "</tr>".data

/-- Per the spec: the dense `maxRow × maxCol` grid. -/
def sheetBodySpec (d : List ((Nat × Nat) × Str)) : Str :=
  ((List.range' 1 (sheetMaxRow d)).map (fun r => sheetRowSpec d r (sheetMaxCol d))).flatten

/-- The sheet markup surrounding the table body, written with the header
cells as a map rather than an accumulator loop. -/
def sheetHeadSpec (name : Option Str) (cols : Option (List Str)) : Str :=
  "<div class=\"block block-sheet\">".data ++
  "<h3 class=\"sheet-name\">".data ++ escapeHtml (jsOrStr name ("Sheet".data)) ++ "</h3>".data ++
  "<table class=\"sheet-table\">".data ++
  (if cols.getD [] ≠ [] then
    "<thead><tr>".data ++
      (((cols.getD []).map (fun col => "<th>".data ++ escapeHtml col ++ "</th>".data)).flatten) ++
      "</tr></thead>".data
   else []) ++
  "<tbody>".data

theorem foldl_max_ite (f : ((Nat × Nat) × Str) → Nat) :
    ∀ (d : List ((Nat × Nat) × Str)) (m : Nat), 1 ≤ m →
      (d.map (fun kv => if f kv = 0 then 1 else f kv)).foldl max m =
        d.foldl (fun acc kv => max acc (f kv)) m
  | [], m, _ => rfl
  | kv :: d, m, hm => by
    rw [List.map_cons, List.foldl_cons, List.foldl_cons]
    have h : max m (if f kv = 0 then 1 else f kv) = max m (f kv) := by
      by_cases h0 : f kv = 0
      · simp [h0, Nat.max_eq_left hm, Nat.max_eq_left (Nat.le_trans (Nat.zero_le 1) hm)]
      · simp [h0]
    rw [h]
    exact foldl_max_ite f d (max m (f kv)) (Nat.le_trans hm (Nat.le_max_left m (f kv)))

theorem sheet_headPart (cs : List Str) :
    cs.foldl (fun h col => h ++ "<th>".data ++ escapeHtml col ++ "</th>".data) [] =
      (cs.map (fun col => "<th>".data ++ escapeHtml col ++ "</th>".data)).flatten := by
  simpa using foldl_append_form
    (fun h col => h ++ "<th>".data ++ escapeHtml col ++ "</th>".data)
    (fun col => "<th>".data ++ escapeHtml col ++ "</th>".data)
    (fun h x => by simp) cs []

theorem sheet_rows_eq (d : List ((Nat × Nat) × Str)) (maxRow maxCol : Nat) :
    (List.range' 1 maxRow).foldl (fun h r =>
      ((List.range' 1 maxCol).foldl (fun h2 c =>
        h2 ++ "<td>".data ++ escapeHtml ((cellValue d r c).getD []) ++ "</td>".data)
        (h ++ "<tr>".data)) ++ "</tr>".data) [] =
      ((List.range' 1 maxRow).map (fun r => sheetRowSpec d r maxCol)).flatten := by
  have hcell : ∀ (r : Nat) (h : Str),
      (List.range' 1 maxCol).foldl (fun h2 c =>
        h2 ++ "<td>".data ++ escapeHtml ((cellValue d r c).getD []) ++ "</td>".data) h =
        h ++ ((List.range' 1 maxCol).map (fun c =>
          "<td>".data ++ escapeHtml ((cellValue d r c).getD []) ++ "</td>".data)).flatten :=
    fun r h => foldl_append_form
      (fun h2 c => h2 ++ "<td>".data ++ escapeHtml ((cellValue d r c).getD []) ++ "</td>".data)
      (fun c => "<td>".data ++ escapeHtml ((cellValue d r c).getD []) ++ "</td>".data)
      (fun h2 x => by simp) (List.range' 1 maxCol) h
  have hmain := foldl_append_form
    (fun h r => ((List.range' 1 maxCol).foldl (fun h2 c =>
      h2 ++ "<td>".data ++ escapeHtml ((cellValue d r c).getD []) ++ "</td>".data)
      (h ++ "<tr>".data)) ++ "</tr>".data)
    (fun r => sheetRowSpec d r maxCol)
    (fun h r => by beta_reduce; rw [hcell]; simp [sheetRowSpec]) (List.range' 1 maxRow) []
  simpa using hmain

def exSheetCols : Option (List Str) := some [['A'], ['B']]

def exSheetData : Option (List ((Nat × Nat) × Str)) := some [((1, 1), ['x']), ((2, 2), ['y'])]

/-- C5: the sheet renderer densifies — with a non-empty cell mapping it
emits a `sheetMaxRow × sheetMaxCol` dense table (extents are the maxima of
the key coordinates, at least 1) whose cell `(r,c)` holds the escaped
value under key `(r,c)` or the empty string; with an empty mapping it
emits one placeholder row spanning the declared column count (minimum 1).
The concrete `cols=["A","B"]`, `data {(1,1):"x",(2,2):"y"}` instance
renders the expected 2×2 table. -/
theorem sheet_densification (name : Option Str) (cols : Option (List Str))
    (data : Option (List ((Nat × Nat) × Str))) :
    generateSheetHTML name cols data =
      sheetHeadSpec name cols ++
        (match data with
         | some d => if d ≠ [] then sheetBodySpec d else sheetEmptyRow (cols.getD [])
         | none => sheetEmptyRow (cols.getD [])) ++
        "</tbody></table>".data ++ "</div>".data ∧
    generateSheetHTML none exSheetCols exSheetData =
      "<div class=\"block block-sheet\"><h3 class=\"sheet-name\">Sheet</h3><table class=\"sheet-table\"><thead><tr><th>A</th><th>B</th></tr></thead><tbody><tr><td>x</td><td></td></tr><tr><td></td><td>y</td></tr></tbody></table></div>".data := by
  constructor
  · cases data with
    | none =>
      simp only [generateSheetHTML, sheetHeadSpec]
      rw [sheet_headPart]
    | some d =>
      by_cases hd : d = []
      · subst hd
        simp only [generateSheetHTML, sheetHeadSpec]
        rw [sheet_headPart]
        simp
      · simp only [generateSheetHTML, sheetHeadSpec, hd, ne_eq, not_false_iff, if_true,
          sheetBodySpec]
        rw [sheet_headPart, foldl_max_ite (fun kv => kv.1.1) d 1 (Nat.le_refl 1),
          foldl_max_ite (fun kv => kv.1.2) d 1 (Nat.le_refl 1), sheet_rows_eq]
        simp [sheetMaxRow, sheetMaxCol, List.append_assoc]
  · decide

/-! ## C2 — inline markdown escapes first, substitutions cannot reintroduce HTML

The key invariant: after `renderInlineMarkdown`, every `<` in the output is
immediately followed by one of the six tag bodies `strong>`, `/strong>`,
`em>`, `/em>`, `code>`, `/code>` — i.e. every `<` comes from one of the
three substitutions, never from the user's text. -/

/-- The six tag bodies the three substitutions can put after a `<`. -/
def tagSet : List Str :=
  ["strong>".data, "/strong>".data, "em>".data, "/em>".data, "code>".data, "/code>".data]

/-- Every occurrence of `<` in the string is immediately followed by one
of the given tag bodies (which itself lies entirely inside the string). -/
def ltOk (tags : List Str) : Str → Prop
  | [] => True
  | c :: rest => (c = '<' → ∃ t, t ∈ tags ∧ ∃ u, rest = t ++ u) ∧ ltOk tags rest

theorem ltOk_nil (tags : List Str) : ltOk tags [] := trivial

theorem ltOk_cons (tags : List Str) (c : Char) (rest : Str)
    (h1 : c = '<' → ∃ t, t ∈ tags ∧ ∃ u, rest = t ++ u) (h2 : ltOk tags rest) :
    ltOk tags (c :: rest) := ⟨h1, h2⟩

theorem ltOk_cons_elim (tags : List Str) (c : Char) (rest : Str)
    (h : ltOk tags (c :: rest)) :
    (c = '<' → ∃ t, t ∈ tags ∧ ∃ u, rest = t ++ u) ∧ ltOk tags rest := h

theorem ltOk_of_no_lt (tags : List Str) :
    ∀ (s : Str), (∀ c ∈ s, c ≠ '<') → ltOk tags s
  | [], _ => trivial
  | c :: s, h =>
    ⟨fun hc => absurd hc (h c (List.mem_cons_self c s)),
     ltOk_of_no_lt tags s (fun x hx => h x (List.mem_cons_of_mem c hx))⟩

theorem ltOk_append (tags : List Str) :
    ∀ (a b : Str), ltOk tags a → ltOk tags b → ltOk tags (a ++ b)
  | [], _, _, hb => hb
  | x :: a, b, ha, hb => by
    obtain ⟨hhead, hrest⟩ := ltOk_cons_elim tags x a ha
    refine ltOk_cons tags x (a ++ b) ?_ (ltOk_append tags a b hrest hb)
    intro hx
    obtain ⟨t, ht, u, hu⟩ := hhead hx
    exact ⟨t, ht, u ++ b, by rw [hu, List.append_assoc]⟩

/-- A tag standing right after its `<` satisfies the invariant. -/
theorem ltOk_single_tag (tags : List Str) (t : Str) (ht : t ∈ tags)
    (hno : ∀ c ∈ t, c ≠ '<') : ltOk tags ('<' :: t) :=
  ltOk_cons tags '<' t (fun _ => ⟨t, ht, [], by simp⟩) (ltOk_of_no_lt tags t hno)

theorem stripPre_eq : ∀ (p s r : Str), stripPre p s = some r → s = p ++ r
  | [], s, r, h => by
    simp only [stripPre, Option.some.injEq] at h
    rw [h]; rfl
  | _ :: _, [], _, h => by simp [stripPre] at h
  | a :: p, b :: s, r, h => by
    simp only [stripPre] at h
    by_cases hab : a = b
    · rw [if_pos hab] at h
      rw [List.cons_append, ← stripPre_eq p s r h, hab]
    · rw [if_neg hab] at h
      exact absurd h (by simp)

theorem lazyCapture_eq (close : Str) :
    ∀ (s cap tail : Str), lazyCapture close s = some (cap, tail) →
      s = cap ++ close ++ tail ∧ cap ≠ []
  | [], cap, tail, h => by simp [lazyCapture] at h
  | c :: rest, cap, tail, h => by
    simp only [lazyCapture] at h
    by_cases hd : dotChar c
    · rw [if_pos hd] at h
      cases hsp : stripPre close rest with
      | some tail' =>
        rw [hsp] at h
        simp only [Option.some.injEq, Prod.mk.injEq] at h
        obtain ⟨hcap, htail⟩ := h
        refine ⟨?_, by rw [← hcap]; simp⟩
        rw [← hcap, ← htail, stripPre_eq close rest tail' hsp]
        simp
      | none =>
        rw [hsp] at h
        cases hlc : lazyCapture close rest with
        | some pr =>
          obtain ⟨cap', tail'⟩ := pr
          rw [hlc] at h
          simp only [Option.some.injEq, Prod.mk.injEq] at h
          obtain ⟨hcap, htail⟩ := h
          obtain ⟨hr, hne⟩ := lazyCapture_eq close rest cap' tail' hlc
          refine ⟨?_, by rw [← hcap]; simp⟩
          rw [← hcap, ← htail, hr]
          simp
        | none => rw [hlc] at h; exact absurd h (by simp)
    · rw [if_neg hd] at h
      exact absurd h (by simp)

/-- If a front segment free of the delimiter contains no full tag break,
it survives a split at the delimiter: `a ++ d :: b = t ++ u` with `d ∉ t`
forces `t` to lie inside `a`. -/
theorem front_of_split (d : Char) :
    ∀ (t a b u : Str), a ++ d :: b = t ++ u → d ∉ t → ∃ u', a = t ++ u'
  | [], a, _, _, _, _ => ⟨a, rfl⟩
  | x :: t, [], b, u, h, hd => by
    rw [List.nil_append] at h
    injection h with h1 _
    exact absurd (by rw [h1]; exact List.mem_cons_self x t) hd
  | x :: t, a0 :: a, b, u, h, hd => by
    rw [List.cons_append] at h
    injection h with h1 h2
    obtain ⟨u', hu'⟩ :=
      front_of_split d t a b u h2 (fun hm => hd (List.mem_cons_of_mem x hm))
    exact ⟨u', by rw [h1, hu']; rfl⟩

/-- The invariant splits at an occurrence of a character that no tag
contains: both sides of the split satisfy it. -/
theorem ltOk_split (tags : List Str) (d : Char) (hd : ∀ t ∈ tags, d ∉ t) :
    ∀ (a b : Str), ltOk tags (a ++ d :: b) → ltOk tags a ∧ ltOk tags b
  | [], b, h => ⟨trivial, (ltOk_cons_elim tags d b h).2⟩
  | x :: a, b, h => by
    obtain ⟨hhead, hrest⟩ := ltOk_cons_elim tags x (a ++ d :: b) h
    obtain ⟨ha, hb⟩ := ltOk_split tags d hd a b hrest
    refine ⟨ltOk_cons tags x a ?_ ha, hb⟩
    intro hx
    obtain ⟨t, ht, u, hu⟩ := hhead hx
    obtain ⟨u', hu'⟩ := front_of_split d t a b u hu (hd t ht)
    exact ⟨t, ht, u', hu'⟩

theorem escCharSpec_no_lt (a : Char) : ∀ c ∈ escCharSpec a, c ≠ '<' := by
  by_cases h1 : a = '&'
  · subst h1; decide
  by_cases h2 : a = '<'
  · subst h2; decide
  by_cases h3 : a = '>'
  · subst h3; decide
  by_cases h4 : a = '"'
  · subst h4; decide
  by_cases h5 : a = '\x27'
  · subst h5; decide
  intro c hc
  simp only [escCharSpec, h1, h2, h3, h4, h5, if_false, List.mem_singleton] at hc
  rw [hc]; exact h2

theorem escapeHtml_no_lt (s : Str) : ∀ c ∈ escapeHtml s, c ≠ '<' := by
  rw [escapeHtml_flatMap]
  intro c hc
  obtain ⟨a, _, hmem⟩ := List.mem_flatMap.mp hc
  exact escCharSpec_no_lt a c hmem

theorem stripPre_single (d c : Char) (rest : Str) :
    stripPre [d] (c :: rest) = if d = c then some rest else none := rfl

/-- The first substitution pass: on input containing no `<` at all, the
output satisfies the invariant as long as the spliced `pre`/`post` do. -/
theorem replaceLazyF_ltOk_of_no_lt (opn close pre post : Str) (tags : List Str)
    (hpre : ltOk tags pre) (hpost : ltOk tags post) :
    ∀ (fuel : Nat) (s : Str), (∀ c ∈ s, c ≠ '<') →
      ltOk tags (replaceLazyF opn close pre post fuel s) := by
  intro fuel
  induction fuel with
  | zero => intro s hs; exact ltOk_of_no_lt tags s hs
  | succ fuel ih =>
    intro s hs
    cases s with
    | nil => exact ltOk_nil tags
    | cons c rest =>
      have hcopy : ltOk tags (c :: replaceLazyF opn close pre post fuel rest) :=
        ltOk_cons tags c _
          (fun hc => absurd hc (hs c (List.mem_cons_self c rest)))
          (ih rest (fun x hx => hs x (List.mem_cons_of_mem c hx)))
      cases hso : stripPre opn (c :: rest) with
      | none => simpa only [replaceLazyF, hso] using hcopy
      | some afterOpen =>
        have hsAfter : ∀ x ∈ afterOpen, x ≠ '<' := by
          intro x hx
          exact hs x (by rw [stripPre_eq opn (c :: rest) afterOpen hso]; simp [hx])
        cases hlc : lazyCapture close afterOpen with
        | none => simpa only [replaceLazyF, hso, hlc] using hcopy
        | some pr =>
          obtain ⟨cap, tail⟩ := pr
          obtain ⟨hdec, _⟩ := lazyCapture_eq close afterOpen cap tail hlc
          have hcap : ∀ x ∈ cap, x ≠ '<' := fun x hx =>
            hsAfter x (by rw [hdec]; simp [hx])
          have htail : ∀ x ∈ tail, x ≠ '<' := fun x hx =>
            hsAfter x (by rw [hdec]; simp [hx])
          have hout : ltOk tags (pre ++ (cap ++ (post ++
              replaceLazyF opn close pre post fuel tail))) :=
            ltOk_append tags _ _ hpre
              (ltOk_append tags _ _ (ltOk_of_no_lt tags cap hcap)
                (ltOk_append tags _ _ hpost (ih tail htail)))
          simpa only [replaceLazyF, hso, hlc, List.append_assoc] using hout

/-- A front segment free of the single-character delimiter is copied
verbatim by the substitution pass. -/
theorem replaceLazyF_keeps_front (d : Char) (pre post : Str) :
    ∀ (t : Str), (∀ c ∈ t, c ≠ d) →
      ∀ (fuel : Nat) (s u : Str), s = t ++ u →
        ∃ u', replaceLazyF [d] [d] pre post fuel s = t ++ u'
  | [], _, fuel, s, u, _ => ⟨replaceLazyF [d] [d] pre post fuel s, by simp⟩
  | x :: t, hxt, 0, s, u, hs => ⟨u, by simp [replaceLazyF, hs]⟩
  | x :: t, hxt, fuel + 1, s, u, hs => by
    subst hs
    have hxd : x ≠ d := hxt x (List.mem_cons_self x t)
    have hsp : stripPre [d] (x :: (t ++ u)) = none := by
      rw [stripPre_single, if_neg (fun h => hxd h.symm)]
    obtain ⟨u', hu'⟩ := replaceLazyF_keeps_front d pre post t
      (fun c hc => hxt c (List.mem_cons_of_mem x hc)) fuel (t ++ u) u rfl
    refine ⟨u', ?_⟩
    rw [List.cons_append]
    simpa only [replaceLazyF, hsp] using congrArg (fun l => x :: l) hu'

/-- The later substitution passes (single-character delimiter `d`): they
preserve the invariant provided `d` is not `<`, no tag body contains `d`
or is empty, and the spliced `pre`/`post` satisfy the invariant. -/
theorem replaceLazyF_ltOk_single (d : Char) (pre post : Str) (tags : List Str)
    (hdlt : d ≠ '<') (htags : ∀ t ∈ tags, t ≠ [] ∧ d ∉ t)
    (hpre : ltOk tags pre) (hpost : ltOk tags post) :
    ∀ (fuel : Nat) (s : Str), ltOk tags s →
      ltOk tags (replaceLazyF [d] [d] pre post fuel s) := by
  intro fuel
  induction fuel with
  | zero => intro s hs; exact hs
  | succ fuel ih =>
    intro s hs
    cases s with
    | nil => exact ltOk_nil tags
    | cons c rest =>
      obtain ⟨hhead, hrest⟩ := ltOk_cons_elim tags c rest hs
      by_cases hdc : d = c
      · subst hdc
        have hsp : stripPre [d] (d :: rest) = some rest := by
          rw [stripPre_single, if_pos rfl]
        cases hlc : lazyCapture [d] rest with
        | none =>
          have hcopy : ltOk tags (d :: replaceLazyF [d] [d] pre post fuel rest) :=
            ltOk_cons tags d _ (fun hc => absurd hc hdlt) (ih rest hrest)
          simpa only [replaceLazyF, hsp, hlc] using hcopy
        | some pr =>
          obtain ⟨cap, tail⟩ := pr
          obtain ⟨hdec, _⟩ := lazyCapture_eq [d] rest cap tail hlc
          have hrest' : ltOk tags (cap ++ d :: tail) := by
            have : cap ++ [d] ++ tail = cap ++ d :: tail := by simp
            rw [hdec] at hrest
            rwa [this] at hrest
          obtain ⟨hcap, htail⟩ :=
            ltOk_split tags d (fun t ht => (htags t ht).2) cap tail hrest'
          have hout : ltOk tags (pre ++ (cap ++ (post ++
              replaceLazyF [d] [d] pre post fuel tail))) :=
            ltOk_append tags _ _ hpre
              (ltOk_append tags _ _ hcap
                (ltOk_append tags _ _ hpost (ih tail htail)))
          simpa only [replaceLazyF, hsp, hlc, List.append_assoc] using hout
      · have hsp : stripPre [d] (c :: rest) = none := by
          rw [stripPre_single, if_neg hdc]
        have hcopy : ltOk tags (c :: replaceLazyF [d] [d] pre post fuel rest) := by
          refine ltOk_cons tags c _ ?_ (ih rest hrest)
          intro hc
          obtain ⟨t, ht, u, hu⟩ := hhead hc
          have hnod : ∀ x ∈ t, x ≠ d := fun x hx hxd =>
            (htags t ht).2 (hxd ▸ hx)
          obtain ⟨u', hu'⟩ := replaceLazyF_keeps_front d pre post t hnod fuel rest u hu
          exact ⟨t, ht, u', hu'⟩
        simpa only [replaceLazyF, hsp] using hcopy

theorem ltOk_strongO : ltOk tagSet ("<strong>".data) := by
  have h : ("<strong>".data : Str) = '<' :: "strong>".data := by decide
  rw [h]
  exact ltOk_single_tag tagSet ("strong>".data) (by decide) (by decide)

theorem ltOk_strongC : ltOk tagSet ("</strong>".data) := by
  have h : ("</strong>".data : Str) = '<' :: "/strong>".data := by decide
  rw [h]
  exact ltOk_single_tag tagSet ("/strong>".data) (by decide) (by decide)

theorem ltOk_emO : ltOk tagSet ("<em>".data) := by
  have h : ("<em>".data : Str) = '<' :: "em>".data := by decide
  rw [h]
  exact ltOk_single_tag tagSet ("em>".data) (by decide) (by decide)

theorem ltOk_emC : ltOk tagSet ("</em>".data) := by
  have h : ("</em>".data : Str) = '<' :: "/em>".data := by decide
  rw [h]
  exact ltOk_single_tag tagSet ("/em>".data) (by decide) (by decide)

theorem ltOk_codeO : ltOk tagSet ("<code>".data) := by
  have h : ("<code>".data : Str) = '<' :: "code>".data := by decide
  rw [h]
  exact ltOk_single_tag tagSet ("code>".data) (by decide) (by decide)

theorem ltOk_codeC : ltOk tagSet ("</code>".data) := by
  have h : ("</code>".data : Str) = '<' :: "/code>".data := by decide
  rw [h]
  exact ltOk_single_tag tagSet ("/code>".data) (by decide) (by decide)

/-- C2: `renderInlineMarkdown` is HTML-escaping followed by the three
ordered markup substitutions applied to the escaped text, and every `<`
in its output is immediately followed by one of the six substituted tag
bodies (`strong>`, `/strong>`, `em>`, `/em>`, `code>`, `/code>`) — so a
literal angle bracket in the source text never reintroduces raw HTML and
user text through this path is escaped exactly once. -/
theorem inline_markdown_escape_once (s : Str) :
    renderInlineMarkdown s = applyCode (applyEm (applyStrong (escapeHtml s))) ∧
    ltOk tagSet (renderInlineMarkdown s) := by
  refine ⟨rfl, ?_⟩
  have h1 : ltOk tagSet (applyStrong (escapeHtml s)) :=
    replaceLazyF_ltOk_of_no_lt ['*', '*'] ['*', '*'] ("<strong>".data) ("</strong>".data)
      tagSet ltOk_strongO ltOk_strongC (escapeHtml s).length (escapeHtml s)
      (escapeHtml_no_lt s)
  have h2 : ltOk tagSet (applyEm (applyStrong (escapeHtml s))) :=
    replaceLazyF_ltOk_single '*' ("<em>".data) ("</em>".data) tagSet
      (by decide) (by decide) ltOk_emO ltOk_emC
      (applyStrong (escapeHtml s)).length (applyStrong (escapeHtml s)) h1
  exact replaceLazyF_ltOk_single (Char.ofNat 96) ("<code>".data) ("</code>".data) tagSet
    (by decide) (by decide) ltOk_codeO ltOk_codeC
    (applyEm (applyStrong (escapeHtml s))).length (applyEm (applyStrong (escapeHtml s))) h2

end OsfPreview
